import Mathlib

/-!
Shallow embedding of the sql-review-ai repository:
  * `src/main.py` — the lint gateway service: `check_security`, `lint_sql`.
  * `src/.github/workflows/run_sql_review.py` — the review pipeline:
    `mask_pii`, `extract_relevant_chunks`, `get_file_contents`,
    `call_dify_workflow`, `is_rejected`, `main`.

Python regular expressions are embedded as executable matchers specialised
to the concrete patterns appearing in the source, with Python `re` scanning
semantics (leftmost match, greedy quantifiers with backtracking,
non-overlapping substitution).  Character classes (`\w`, `\s`, `\d`) are
modelled on their ASCII parts; non-ASCII characters are treated as word
constituents for `\b`, matching Python's Unicode-aware `\w` on the letter
scripts that occur in this repository's data.
-/

namespace SqlReview

/-- Word characters for the regex boundary `\b`: ASCII alphanumerics and
underscore; non-ASCII characters (e.g. Hangul) count as word characters,
as under Python's Unicode-aware `\w`. -/
def isWordChar (c : Char) : Bool :=
  c.isAlphanum || c == '_' || decide (128 ≤ c.toNat)

/-- ASCII part of the Python whitespace class `\s`. -/
def isSpaceChar (c : Char) : Bool :=
  c == ' ' || c == '\t' || c == '\n' || c == '\r' || c == '\x0b' || c == '\x0c'

/-- Strip `n` decimal digits (`\d{n}`) from the head, returning the digits
and the remainder. -/
def takeDigits : Nat → List Char → Option (List Char × List Char)
  | 0, s => some ([], s)
  | _ + 1, [] => none
  | n + 1, c :: cs =>
    if c.isDigit then (takeDigits n cs).map (fun p => (c :: p.1, p.2)) else none

/-- Case-insensitive literal match at the head of the input; returns the
remainder on success (`re.IGNORECASE` on a literal alternative). -/
def ciStrip : List Char → List Char → Option (List Char)
  | [], s => some s
  | _ :: _, [] => none
  | p :: ps, c :: cs => if p.toLower == c.toLower then ciStrip ps cs else none

/-- Case-insensitive match of the word `w` at the head of `s`, with a `\b`
boundary on both sides (`prev` is the character just before `s`, if any). -/
def wordMatchAt (w : List Char) (prev : Option Char) (s : List Char) : Bool :=
  (match prev with
   | none => true
   | some p => !isWordChar p) &&
  (match ciStrip w s with
   | none => false
   | some [] => true
   | some (c :: _) => !isWordChar c)

/-- Scan of `re.search(r"\bW\b", s, re.IGNORECASE)`:  `prev` is the
character preceding the current position. -/
def wordSearchFrom (w : List Char) : Option Char → List Char → Bool
  | _, [] => false
  | prev, c :: cs => wordMatchAt w prev (c :: cs) || wordSearchFrom w (some c) cs

/-- `re.search(r"\bW\b", sql, re.IGNORECASE) is not None`. -/
def hasWord (w : String) (sql : String) : Bool :=
  wordSearchFrom w.data none sql.data

/-- Tail of `SELECT\s+\*` after at least one whitespace character has been
consumed: more whitespace, then a literal asterisk. -/
def afterWs : List Char → Bool
  | [] => false
  | c :: cs => c == '*' || (isSpaceChar c && afterWs cs)

/-- `SELECT\s+\*` (case-insensitive) matching at the head of the input. -/
def selectStarAt (s : List Char) : Bool :=
  match ciStrip "SELECT".data s with
  | none => false
  | some r =>
    match r with
    | [] => false
    | c :: cs => isSpaceChar c && afterWs cs

/-- `re.search(r"SELECT\s+\*", sql, re.IGNORECASE) is not None`. -/
def hasSelectStar (sql : String) : Bool :=
  go sql.data
where
  go : List Char → Bool
    | [] => false
    | c :: cs => selectStarAt (c :: cs) || go cs

/-- `\d{6}[-]\d{7}` matching at the head of the input. -/
def rrnSimpleAt (s : List Char) : Bool :=
  match takeDigits 6 s with
  | none => false
  | some (_, r) =>
    match r with
    | '-' :: r2 => (takeDigits 7 r2).isSome
    | _ => false

/-- `re.search(r"\d{6}[-]\d{7}", sql) is not None`. -/
def hasRrnSimple (sql : String) : Bool :=
  go sql.data
where
  go : List Char → Bool
    | [] => false
    | c :: cs => rrnSimpleAt (c :: cs) || go cs

/-- Severity levels used by `check_security` (`"low"`, `"medium"`, `"high"`). -/
inductive Severity where
  | low
  | medium
  | high
deriving DecidableEq, BEq, Repr

/-- The dictionary returned by `check_security`. -/
structure SecurityResult where
  is_safe : Bool
  warnings : List String
  max_severity : Severity
deriving DecidableEq, BEq, Repr

def dangerous_keywords : List String :=
  ["DROP", "TRUNCATE", "DELETE", "ALTER", "GRANT"]

def kwWarning (w : String) : String :=
  "⛔ 고위험 명령어 감지!: " ++ w

def selectStarWarning : String :=
  "⚠️ 성능/보안 경고: SELECT * 사용 (컬럼 명시 권장)"

def piiWarning : String :=
  "🛡️ 개인정보(PII) 노출 의심: 주민등록번호 패턴"

/-- `check_security` from `src/main.py`: keyword loop (each hit appends a
warning and sets severity to high), then the `SELECT *` rule and the
resident-registration-number rule, each raising a low severity to medium. -/
def check_security (sql : String) : SecurityResult :=
  let s0 : List String × Severity :=
    dangerous_keywords.foldl
      (fun acc w =>
        if hasWord w sql then (acc.1 ++ [kwWarning w], Severity.high) else acc)
      ([], Severity.low)
  let s1 : List String × Severity :=
    if hasSelectStar sql then
      (s0.1 ++ [selectStarWarning],
        if s0.2 = Severity.low then Severity.medium else s0.2)
    else s0
  let s2 : List String × Severity :=
    if hasRrnSimple sql then
      (s1.1 ++ [piiWarning],
        if s1.2 = Severity.low then Severity.medium else s1.2)
    else s1
  { is_safe := s2.2 != Severity.high
    warnings := s2.1
    max_severity := s2.2 }

/-! ### `mask_pii` from `src/.github/workflows/run_sql_review.py`

Three `re.sub` passes in source order: resident registration numbers,
mobile phone numbers, e-mail addresses.  Each pass is embedded as a
per-position matcher plus a left-to-right, non-overlapping substitution
driver.  The drivers take the input length as structural-recursion fuel;
every match consumes at least one character, so this fuel is never
exhausted before the scan ends. -/

/-- Separator class `[-\s]` of the RRN pattern. -/
def isRrnSep (c : Char) : Bool := c == '-' || isSpaceChar c

/-- Greedy `[-\s]*`; the class is disjoint from `\d`, so the maximal run is
the only viable parse. -/
def dropRrnSeps : List Char → List Char
  | [] => []
  | c :: cs => if isRrnSep c then dropRrnSeps cs else c :: cs

/-- Match of `(?<!\d)(\d{6})[-\s]*([1-4]\d{6})(?!\d)` at the head of `s`,
where `prev` is the character just before `s` in the original string.
Returns the first captured group and the remainder after the match. -/
def matchRrnAt (prev : Option Char) (s : List Char) : Option (List Char × List Char) :=
  if (match prev with | some p => p.isDigit | none => false) then none
  else
    match takeDigits 6 s with
    | none => none
    | some (d6, r1) =>
      match dropRrnSeps r1 with
      | [] => none
      | c :: cs =>
        if c == '1' || c == '2' || c == '3' || c == '4' then
          match takeDigits 6 cs with
          | none => none
          | some (_, r3) =>
            match r3 with
            | [] => some (d6, r3)
            | c2 :: _ => if c2.isDigit then none else some (d6, r3)
        else none

/-- Replacement `\1-*******` of the RRN substitution. -/
def rrnRepl (d6 : List Char) : List Char :=
  d6 ++ '-' :: List.replicate 7 '*'

/-- Substitution driver for the RRN pattern (`re.sub` scan).  The
lookbehind inspects the original text: after a match the scan resumes just
past it, and the character before that position is the final digit of the
match, so the driver passes a digit (any digit serves) as `prev`. -/
def rrnGo : Nat → Option Char → List Char → List Char
  | 0, _, s => s
  | _ + 1, _, [] => []
  | fuel + 1, prev, c :: cs =>
    match matchRrnAt prev (c :: cs) with
    | some (d6, rest) => rrnRepl d6 ++ rrnGo fuel (some '0') rest
    | none => c :: rrnGo fuel (some c) cs

/-- `re.search` for the RRN pattern. -/
def rrnFound : Option Char → List Char → Bool
  | _, [] => false
  | prev, c :: cs => (matchRrnAt prev (c :: cs)).isSome || rrnFound (some c) cs

/-- Separator class `[-.\s]` of the phone pattern. -/
def isPhoneSep (c : Char) : Bool := c == '-' || c == '.' || isSpaceChar c

/-- Optional greedy separator `[-.\s]?`: try consuming, then try not. -/
def phoneOptSep (k : List Char → Option (List Char × List Char)) :
    List Char → Option (List Char × List Char)
  | [] => k []
  | c :: cs =>
    if isPhoneSep c then (k cs).orElse (fun _ => k (c :: cs)) else k (c :: cs)

/-- Match of `(01[016789])[-.\s]?(\d{3,4})[-.\s]?(\d{4})` at the head of
`s`.  Returns (group 1, group 3, remainder).  The middle group is greedy:
four digits are tried before three, with full backtracking into the rest
of the pattern. -/
def matchPhoneAt (s : List Char) : Option (List Char × List Char × List Char) :=
  match s with
  | c0 :: c1 :: c2 :: r =>
    if c0 == '0' && c1 == '1' &&
        (c2 == '0' || c2 == '1' || c2 == '6' || c2 == '7' || c2 == '8' || c2 == '9') then
      let tail : List Char → Option (List Char × List Char) := fun r2 =>
        phoneOptSep (fun r3 => (takeDigits 4 r3).map (fun p => (p.1, p.2))) r2
      let mid : List Char → Option (List Char × List Char) := fun r1 =>
        ((takeDigits 4 r1).bind (fun p => tail p.2)).orElse
          (fun _ => (takeDigits 3 r1).bind (fun p => tail p.2))
      (phoneOptSep mid r).map (fun p => ([c0, c1, c2], p.1, p.2))
    else none
  | _ => none

/-- Replacement `\1-****-\3` of the phone substitution. -/
def phoneRepl (g1 g3 : List Char) : List Char :=
  g1 ++ '-' :: '*' :: '*' :: '*' :: '*' :: '-' :: g3

/-- Substitution driver for the phone pattern. -/
def phoneGo : Nat → List Char → List Char
  | 0, s => s
  | _ + 1, [] => []
  | fuel + 1, c :: cs =>
    match matchPhoneAt (c :: cs) with
    | some (g1, g3, rest) => phoneRepl g1 g3 ++ phoneGo fuel rest
    | none => c :: phoneGo fuel cs

/-- `re.search` for the phone pattern. -/
def phoneFound : List Char → Bool
  | [] => false
  | c :: cs => (matchPhoneAt (c :: cs)).isSome || phoneFound cs

/-- Local-part class `[a-zA-Z0-9._%+-]` of the e-mail pattern. -/
def isLocalChar (c : Char) : Bool :=
  c.isAlphanum || c == '.' || c == '_' || c == '%' || c == '+' || c == '-'

/-- Domain class `[a-zA-Z0-9.-]` of the e-mail pattern. -/
def isDomChar (c : Char) : Bool :=
  c.isAlphanum || c == '.' || c == '-'

/-- Length of the greedy `[a-zA-Z]{2,}` run at the head (0 if below 2). -/
def letterRun (s : List Char) : Nat :=
  (s.takeWhile Char.isAlpha).length

/-- Split index for `[a-zA-Z0-9.-]+\.[a-zA-Z]{2,}` against `r2`: the
largest `m ≥ 1` such that the first `m` characters are domain characters,
character `m` is a dot, and at least two letters follow — the backtracking
order of the greedy `+`.  Returns the chosen `m`. -/
def emailDomSplit (r2 : List Char) : Option Nat :=
  let M := (r2.takeWhile isDomChar).length
  ((List.range (M + 1)).filter (fun m =>
    decide (1 ≤ m) &&
    (match r2.drop m with
     | '.' :: t => decide (2 ≤ letterRun t)
     | _ => false))).getLast?

/-- Match of `([a-zA-Z0-9._%+-]+)(@[a-zA-Z0-9.-]+\.[a-zA-Z]{2,})` at the
head of `s`.  The local class excludes `@`, so the greedy local part is
exactly the maximal run.  Returns (group 2, remainder). -/
def matchEmailAt (s : List Char) : Option (List Char × List Char) :=
  let loc := s.takeWhile isLocalChar
  if loc.length == 0 then none
  else
    match s.drop loc.length with
    | '@' :: r2 =>
      match emailDomSplit r2 with
      | none => none
      | some m =>
        let L := letterRun (r2.drop (m + 1))
        some ('@' :: r2.take (m + 1 + L), r2.drop (m + 1 + L))
    | _ => none

/-- Replacement `***\2` of the e-mail substitution. -/
def emailRepl (g2 : List Char) : List Char :=
  '*' :: '*' :: '*' :: g2

/-- Substitution driver for the e-mail pattern. -/
def emailGo : Nat → List Char → List Char
  | 0, s => s
  | _ + 1, [] => []
  | fuel + 1, c :: cs =>
    match matchEmailAt (c :: cs) with
    | some (g2, rest) => emailRepl g2 ++ emailGo fuel rest
    | none => c :: emailGo fuel cs

/-- `re.search` for the e-mail pattern. -/
def emailFound : List Char → Bool
  | [] => false
  | c :: cs => (matchEmailAt (c :: cs)).isSome || emailFound cs

/-- `mask_pii` from `src/.github/workflows/run_sql_review.py`: the three
substitutions applied in source order (RRN, phone, e-mail); the empty
string is returned unchanged (as by the `if not text` guard). -/
def mask_pii (text : String) : String :=
  let t1 := rrnGo text.data.length none text.data
  let t2 := phoneGo t1.length t1
  let t3 := emailGo t2.length t2
  String.mk t3

/-- No maskable pattern occurs anywhere in the string. -/
def maskNoMatch (s : String) : Bool :=
  !rrnFound none s.data && !phoneFound s.data && !emailFound s.data

/-! ### `lint_sql` from `src/main.py`

The endpoint is embedded as a function of the request, the outcome of the
`sqlfluff` subprocess call, and a JSON-parse oracle standing for
`json.loads` on the linter's stdout (`none` models `JSONDecodeError`).
Inner `HTTPException`s raised in the `try` block are re-raised by the
generic `except Exception` handler with the same 500 status and a
stringified detail, so each error branch is represented by one
constructor carrying its identifying payload.  Resource events record the
temporary-file lifecycle: the file is created before the subprocess call
and the `finally` block removes it on every path. -/

/-- The request body (`SQLRequest`). -/
structure SQLRequest where
  sql : String
  dialect : String := "ansi"
deriving DecidableEq, Repr

/-- One entry of a `violations` array in the linter's JSON output; the
fields are optional, matching the `\x7bdict\x7d.get` defaults. -/
structure Violation where
  line_no : Option Int
  description : Option String
  code : Option String
deriving DecidableEq, Repr

/-- One file entry of the linter's JSON output. -/
structure FileResult where
  violations : List Violation
deriving DecidableEq, Repr

/-- Outcome of the `subprocess.run` call: normal completion with an exit
code and captured streams, or `subprocess.TimeoutExpired`. -/
inductive RunOutcome where
  | completed (returncode : Int) (stdout : String) (stderr : String)
  | timedOut
deriving DecidableEq, Repr

/-- `f"Line \x7b...\x7d: \x7b...\x7d (Code: \x7b...\x7d)"` with the `get` defaults. -/
def violationText (v : Violation) : String :=
  "Line " ++ (match v.line_no with | some n => toString n | none => "?") ++
  ": " ++ v.description.getD "Unknown" ++
  " (Code: " ++ v.code.getD "N/A" ++ ")"

/-- The flattened `simplified_errors` list. -/
def simplifiedErrors (raw : List FileResult) : List String :=
  (raw.map (fun fr => fr.violations.map violationText)).flatten

/-- Observable reply of the endpoint. -/
inductive LintReply where
  | success (security : SecurityResult) (found_errors : Bool) (details : List String)
  | processFailed (stderr : String)
  | parseFailed (raw_output : String)
  | timedOut
deriving DecidableEq, Repr

/-- HTTP status attached to each reply shape (the inner 500s keep status
500 after being re-raised by the generic handler). -/
def statusCode : LintReply → Nat
  | .success _ _ _ => 200
  | .processFailed _ => 500
  | .parseFailed _ => 500
  | .timedOut => 504

/-- Temporary-file and subprocess events of one request, in order. -/
inductive FsEvent where
  | createTemp
  | runLinter
  | removeTemp
deriving DecidableEq, Repr

/-- Result of one request: the reply plus the resource-event trace. -/
structure LintExec where
  reply : LintReply
  events : List FsEvent
deriving DecidableEq, Repr

/-- `json.loads(result.stdout) if result.stdout else []`. -/
def loadStdout (parse : String → Option (List FileResult)) (out : String) :
    Option (List FileResult) :=
  if out = "" then some [] else parse out

/-- `lint_sql`: compute `check_security`, write the SQL to a fresh
temporary file, run the linter, branch on the exit code, parse the JSON
output, and build the reply; the `finally` block removes the temporary
file after every branch. -/
def lint_sql (parse : String → Option (List FileResult)) (req : SQLRequest)
    (run : RunOutcome) : LintExec :=
  let security_result := check_security req.sql
  let bodyEvents := [FsEvent.createTemp, FsEvent.runLinter]
  let reply : LintReply :=
    match run with
    | .timedOut => .timedOut
    | .completed rc out err =>
      if ¬(rc = 0 ∨ rc = 1) then .processFailed err
      else
        match loadStdout parse out with
        | none => .parseFailed out
        | some raw =>
          let errs := simplifiedErrors raw
          .success security_result (decide (0 < errs.length)) errs
  { reply := reply
    events := bodyEvents ++ [FsEvent.removeTemp] }

/-- The security verdict carried by a reply, when it carries one. -/
def replySecurity : LintReply → Option SecurityResult
  | .success sec _ _ => some sec
  | _ => none

/-! ### Hybrid scan from `src/.github/workflows/run_sql_review.py`

`extract_relevant_chunks` windows a long file to the padded neighbourhoods
of its changed-line ranges; `get_file_contents` (non-markup branch) picks
full scan or windowed scan by the 300-line threshold, masks PII, and
returns at most one snippet.  Changed-line ranges are the `(start, end)`
pairs parsed from diff hunk headers; both components are Python ints, so
they are embedded as `Int` (a zero-count hunk yields `end = start - 1`).
`str.splitlines` is modelled for `\n`-terminated text, the only line
terminator occurring in this repository's inputs. -/

def MAX_FULL_SCAN_LINES : Nat := 300

def CONTEXT_PADDING : Int := 20

/-- Split at every newline, keeping a trailing empty piece (the shape of
`str.split`). -/
def splitNL : List Char → List (List Char)
  | [] => [[]]
  | c :: cs =>
    if c = '\n' then [] :: splitNL cs
    else
      match splitNL cs with
      | [] => [[c]]
      | h :: t => (c :: h) :: t

/-- `str.splitlines` for `\n`-terminated text: no trailing empty line, the
empty string has no lines. -/
def splitlinesN (s : String) : List String :=
  if s.data = [] then []
  else
    let parts := (splitNL s.data).map String.mk
    if s.data.getLast? = some '\n' then parts.dropLast else parts

/-- The `lines_to_keep` set: union over the diff ranges of the padded
windows clamped to `[1, total]`. -/
def lines_to_keep (ranges : List (Int × Int)) (total : Int) : Finset Int :=
  ranges.foldl
    (fun acc r =>
      acc ∪ Finset.Icc (max 1 (r.1 - CONTEXT_PADDING)) (min total (r.2 + CONTEXT_PADDING)))
    ∅

/-- `sorted(list(lines_to_keep))`: the increasing, duplicate-free
enumeration of the kept set, computed by filtering the line numbers
`1 … total` (every kept line lies in that span); the theorem
`sorted_lines_eq_sort` below identifies it with `Finset.sort`. -/
def sorted_lines (ranges : List (Int × Int)) (total : Int) : List Int :=
  ((List.range total.toNat).map (fun i => ((i + 1 : Nat) : Int))).filter
    (fun n => decide (n ∈ lines_to_keep ranges total))

/-- The separator chunk appended when a gap in the kept lines is crossed. -/
def skipMarker : String := "\n... (Skipped Unchanged Code) ...\n"

/-- `content_lines[line_num - 1]` (kept line numbers always lie in
`[1, total]`, so the default is never consulted on reachable inputs). -/
def lineAt (content_lines : List String) (n : Int) : String :=
  content_lines.getD (n - 1).toNat ""

/-- The chunk-building loop of `extract_relevant_chunks`: walk the sorted
kept lines, inserting `skipMarker` whenever the next number is not the
direct successor of the previous one (`last_line = -1` becomes `none`). -/
def chunkWalk (content_lines : List String) : Option Int → List Int → List String
  | _, [] => []
  | none, n :: rest => lineAt content_lines n :: chunkWalk content_lines (some n) rest
  | some m, n :: rest =>
    if m + 1 < n then
      skipMarker :: lineAt content_lines n :: chunkWalk content_lines (some n) rest
    else
      lineAt content_lines n :: chunkWalk content_lines (some n) rest

/-- `extract_relevant_chunks`, with the diff ranges passed in place of the
`get_git_diff_ranges` call (the function's only use of the file path). -/
def extract_relevant_chunks (ranges : List (Int × Int)) (content_lines : List String) :
    String :=
  if ranges = [] then ""
  else
    let total : Int := content_lines.length
    if lines_to_keep ranges total = ∅ then ""
    else
      String.intercalate "\n" (chunkWalk content_lines none (sorted_lines ranges total))

/-- The hybrid-scan choice of `get_file_contents`: full content for files
of at most 300 lines, otherwise the windowed chunks, falling back to full
content when windowing produced nothing. -/
def select_content (content : String) (ranges : List (Int × Int)) : String :=
  let lines := splitlinesN content
  if lines.length ≤ MAX_FULL_SCAN_LINES then content
  else
    let chunked := extract_relevant_chunks ranges lines
    if chunked = "" then content else chunked

/-- Python's `str.strip()`: drop leading and trailing whitespace. -/
def pyStrip (s : String) : String :=
  String.mk (((s.data.dropWhile isSpaceChar).reverse.dropWhile isSpaceChar).reverse)

/-- The non-markup branch of `get_file_contents`: select content, mask
PII, and return one snippet unless the masked text is whitespace-only
(the `if masked_content.strip()` guard). -/
def get_file_contents_model (content : String) (ranges : List (Int × Int)) :
    List String :=
  let masked := mask_pii (select_content content ranges)
  if pyStrip masked = "" then [] else [masked]

/-- Rendering stated from the specification's words: emit the kept lines
in order and exactly one omission marker at each gap between
non-consecutive kept line numbers.  `renderTail m ns` renders `ns` when
`m` was the previously kept line. -/
def renderTail (content_lines : List String) (m : Int) : List Int → List String
  | [] => []
  | n :: rest =>
    (if m + 1 < n then [skipMarker] else []) ++
      lineAt content_lines n :: renderTail content_lines n rest

/-- Spec-side rendering of a kept-line list (see `renderTail`). -/
def renderSpec (content_lines : List String) : List Int → List String
  | [] => []
  | n :: rest => lineAt content_lines n :: renderTail content_lines n rest

/-! ### `call_dify_workflow`, `is_rejected` and the aggregate decision

`call_dify_workflow` is embedded over an outcome describing the reviewer
round trip: a non-ok HTTP response, a parsed `outputs` object, or a raised
exception (connection failure, timeout, and a malformed JSON body all
reach the same `except` clause).  `is_rejected`'s regular expression
`(상태|Status)\s*[:\-]?\s*(.*)(반려|Fail|Reject|치명적인\s*오류)` with
`re.IGNORECASE` is embedded as a backtracking acceptor; `.` does not match
a newline, while `\s` does. -/

/-- Outcome of one reviewer round trip. -/
inductive DifyOutcome where
  | httpError (status : Nat)
  | ok (text markdown_report result : Option String)
  | exn (message : String)
deriving DecidableEq, Repr

/-- Python's `a or b or c or ""` over the three output fields (`None` and
`""` are both falsy). -/
def firstTruthy : List (Option String) → String
  | [] => ""
  | none :: rest => firstTruthy rest
  | some s :: rest => if s = "" then firstTruthy rest else s

/-- `call_dify_workflow`, as a function of the round-trip outcome. -/
def call_dify_workflow : DifyOutcome → String
  | .httpError code => "❌ API 오류: " ++ toString code
  | .ok t m r => firstTruthy [t, m, r]
  | .exn message => "❌ 연결 오류: " ++ message

/-- Acceptor for `[^\n]*` consuming the whole input. -/
def accNoNL (w : List Char) : Bool := w.all (fun c => c != '\n')

/-- Acceptor for `\s*[^\n]*` consuming the whole input. -/
def accWsNoNL : List Char → Bool
  | [] => true
  | c :: cs => accNoNL (c :: cs) || (isSpaceChar c && accWsNoNL cs)

/-- Acceptor for the glue `\s*[:\-]?\s*(.*)` of the rejection pattern,
consuming the whole input (with `.*` free to match anything but
newlines). -/
def accGlue : List Char → Bool
  | [] => true
  | c :: cs =>
    accWsNoNL (c :: cs) ||
    ((c == ':' || c == '-') && accWsNoNL cs) ||
    (isSpaceChar c && accGlue cs)

/-- The keyword alternative `(반려|Fail|Reject|치명적인\s*오류)` matching at
the head of the input (case-insensitively). -/
def rejectKeywordAt (s : List Char) : Bool :=
  (ciStrip "반려".data s).isSome ||
  (ciStrip "Fail".data s).isSome ||
  (ciStrip "Reject".data s).isSome ||
  (match ciStrip "치명적인".data s with
   | some r => (ciStrip "오류".data (r.dropWhile isSpaceChar)).isSome
   | none => false)

/-- After the status token: some split of the remainder into glue followed
by a keyword match. -/
def glueThenKeyword (r : List Char) : Bool :=
  (List.range (r.length + 1)).any
    (fun m => accGlue (r.take m) && rejectKeywordAt (r.drop m))

/-- `re.search` for the full rejection pattern. -/
def rejectRegexHit : List Char → Bool
  | [] => false
  | c :: cs =>
    (match (ciStrip "상태".data (c :: cs)).orElse
        (fun _ => ciStrip "Status".data (c :: cs)) with
     | some r => glueThenKeyword r
     | none => false) ||
    rejectRegexHit cs

/-- Literal (case-sensitive) match at the head of the input. -/
def headLit : List Char → List Char → Bool
  | [], _ => true
  | _ :: _, [] => false
  | p :: ps, c :: cs => p == c && headLit ps cs

/-- Python's `needle in hay` substring test. -/
def containsSub (needle : List Char) : List Char → Bool
  | [] => headLit needle []
  | c :: cs => headLit needle (c :: cs) || containsSub needle cs

/-- `is_rejected` from `src/.github/workflows/run_sql_review.py`. -/
def is_rejected (report_markdown : String) : Bool :=
  if report_markdown = "" then false
  else if rejectRegexHit report_markdown.data then true
  else if containsSub "반려 (Reject)".data report_markdown.data ||
          containsSub "Status: Reject".data report_markdown.data then true
  else false

/-- The `has_failure` flag of `main`: folded over the per-snippet report
strings in review order. -/
def has_failure (results : List String) : Bool :=
  results.foldl (fun acc res => acc || is_rejected res) false

/-- The process exit status of `main`: `sys.exit(1)` iff some snippet's
report was classified as rejected. -/
def run_exit (results : List String) : Nat :=
  if has_failure results then 1 else 0

/-! ## Helper lemmas -/

theorem mk_data (s : String) : String.mk s.data = s := by
  cases s
  rfl

theorem rrnGo_of_not_found :
    ∀ (fuel : Nat) (prev : Option Char) (s : List Char),
      rrnFound prev s = false → rrnGo fuel prev s = s := by
  intro fuel
  induction fuel with
  | zero => intro prev s _; rfl
  | succ n ih =>
    intro prev s h
    cases s with
    | nil => rfl
    | cons c cs =>
      rw [rrnFound, Bool.or_eq_false_iff] at h
      have h1 : matchRrnAt prev (c :: cs) = none :=
        Option.not_isSome_iff_eq_none.mp (by simp [h.1])
      rw [rrnGo, h1]
      exact congrArg (c :: ·) (ih (some c) cs h.2)

theorem phoneGo_of_not_found :
    ∀ (fuel : Nat) (s : List Char), phoneFound s = false → phoneGo fuel s = s := by
  intro fuel
  induction fuel with
  | zero => intro s _; rfl
  | succ n ih =>
    intro s h
    cases s with
    | nil => rfl
    | cons c cs =>
      rw [phoneFound, Bool.or_eq_false_iff] at h
      have h1 : matchPhoneAt (c :: cs) = none :=
        Option.not_isSome_iff_eq_none.mp (by simp [h.1])
      rw [phoneGo, h1]
      exact congrArg (c :: ·) (ih cs h.2)

theorem emailGo_of_not_found :
    ∀ (fuel : Nat) (s : List Char), emailFound s = false → emailGo fuel s = s := by
  intro fuel
  induction fuel with
  | zero => intro s _; rfl
  | succ n ih =>
    intro s h
    cases s with
    | nil => rfl
    | cons c cs =>
      rw [emailFound, Bool.or_eq_false_iff] at h
      have h1 : matchEmailAt (c :: cs) = none :=
        Option.not_isSome_iff_eq_none.mp (by simp [h.1])
      rw [emailGo, h1]
      exact congrArg (c :: ·) (ih cs h.2)

theorem mask_pii_of_noMatch (t : String) (h : maskNoMatch t = true) :
    mask_pii t = t := by
  rw [maskNoMatch, Bool.and_eq_true, Bool.and_eq_true] at h
  obtain ⟨⟨h1, h2⟩, h3⟩ := h
  rw [Bool.not_eq_true'] at h1 h2 h3
  simp only [mask_pii]
  rw [rrnGo_of_not_found _ _ _ h1, phoneGo_of_not_found _ _ h2,
    emailGo_of_not_found _ _ h3, mk_data]

theorem select_content_of_small (content : String) (ranges : List (Int × Int))
    (h : (splitlinesN content).length ≤ MAX_FULL_SCAN_LINES) :
    select_content content ranges = content := by
  unfold select_content
  rw [if_pos h]

theorem foldl_or_eq_any (p : α → Bool) :
    ∀ (l : List α) (b : Bool), l.foldl (fun a x => a || p x) b = (b || l.any p) := by
  intro l
  induction l with
  | nil => intro b; simp
  | cons x xs ih => intro b; rw [List.foldl_cons, ih, List.any_cons, Bool.or_assoc]

theorem check_kw_foldl (sql : String) :
    ∀ (ks : List String) (acc : List String) (sev : Severity),
      ks.foldl
        (fun a w => if hasWord w sql then (a.1 ++ [kwWarning w], Severity.high) else a)
        (acc, sev) =
      (acc ++ (ks.filter (fun w => hasWord w sql)).map kwWarning,
        if ks.any (fun w => hasWord w sql) then Severity.high else sev) := by
  intro ks
  induction ks with
  | nil => intro acc sev; simp
  | cons k ks ih =>
    intro acc sev
    by_cases h : hasWord k sql
    · simp only [List.foldl_cons, h, if_pos, List.any_cons, Bool.true_or, if_true, ih,
        List.filter_cons_of_pos, List.map_cons, List.append_assoc, List.cons_append,
        List.nil_append]
      simp
    · simp only [List.foldl_cons, h, List.any_cons, Bool.false_or, ih,
        List.filter_cons_of_neg]
      simp [h]

theorem mem_lines_to_keep (ranges : List (Int × Int)) (total : Int) (n : Int) :
    n ∈ lines_to_keep ranges total ↔
      ∃ r ∈ ranges, max 1 (r.1 - CONTEXT_PADDING) ≤ n ∧
        n ≤ min total (r.2 + CONTEXT_PADDING) := by
  have key : ∀ (rs : List (Int × Int)) (init : Finset Int),
      (n ∈ rs.foldl
        (fun acc r =>
          acc ∪ Finset.Icc (max 1 (r.1 - CONTEXT_PADDING)) (min total (r.2 + CONTEXT_PADDING)))
        init ↔
      n ∈ init ∨ ∃ r ∈ rs, max 1 (r.1 - CONTEXT_PADDING) ≤ n ∧
        n ≤ min total (r.2 + CONTEXT_PADDING)) := by
    intro rs
    induction rs with
    | nil => intro init; simp
    | cons r rs ih =>
      intro init
      rw [List.foldl_cons, ih]
      simp only [Finset.mem_union, Finset.mem_Icc, List.mem_cons]
      constructor
      · rintro (⟨hi | hr⟩ | ⟨q, hq, hb⟩)
        · exact Or.inl hi
        · exact Or.inr ⟨r, Or.inl rfl, hr⟩
        · exact Or.inr ⟨q, Or.inr hq, hb⟩
      · rintro (hi | ⟨q, (rfl | hq), hb⟩)
        · exact Or.inl (Or.inl hi)
        · exact Or.inl (Or.inr hb)
        · exact Or.inr ⟨q, hq, hb⟩
  rw [lines_to_keep, key ranges ∅]
  simp

theorem mem_sorted_lines (ranges : List (Int × Int)) (total : Int) (n : Int) :
    n ∈ sorted_lines ranges total ↔ n ∈ lines_to_keep ranges total := by
  unfold sorted_lines
  rw [List.mem_filter]
  simp only [List.mem_map, List.mem_range, decide_eq_true_eq]
  constructor
  · rintro ⟨_, h⟩
    exact h
  · intro h
    refine ⟨?_, h⟩
    obtain ⟨r, hr, h1, h2⟩ := (mem_lines_to_keep ranges total n).mp h
    have hn1 : (1 : Int) ≤ n := le_trans (le_max_left _ _) h1
    have hn2 : n ≤ total := le_trans h2 (min_le_left _ _)
    exact ⟨(n - 1).toNat, by omega, by omega⟩

theorem sorted_lines_strict (ranges : List (Int × Int)) (total : Int) :
    (sorted_lines ranges total).Sorted (· < ·) := by
  unfold sorted_lines
  apply List.Pairwise.sublist (List.filter_sublist _)
  have hp : ∀ (a b : Nat), a < b → ((a + 1 : Nat) : Int) < ((b + 1 : Nat) : Int) := by
    intro a b h
    omega
  exact List.pairwise_map.mpr
    ((List.pairwise_lt_range _).imp (fun h => hp _ _ h))

theorem sorted_lines_eq_sort (ranges : List (Int × Int)) (total : Int) :
    sorted_lines ranges total = (lines_to_keep ranges total).sort (· ≤ ·) := by
  haveI : IsAntisymm Int (· ≤ ·) := ⟨fun a b => le_antisymm⟩
  apply List.eq_of_perm_of_sorted (r := (· ≤ ·))
  · rw [List.perm_ext_iff_of_nodup
      ((sorted_lines_strict ranges total).imp ne_of_lt)
      (Finset.sort_nodup _ _)]
    intro a
    rw [mem_sorted_lines, Finset.mem_sort]
  · exact (sorted_lines_strict ranges total).imp le_of_lt
  · exact Finset.sort_sorted _ _

theorem chunkWalk_some_eq_renderTail (content_lines : List String) :
    ∀ (L : List Int) (m : Int),
      chunkWalk content_lines (some m) L = renderTail content_lines m L := by
  intro L
  induction L with
  | nil => intro m; rfl
  | cons n rest ih =>
    intro m
    rw [chunkWalk, renderTail]
    by_cases h : m + 1 < n
    · rw [if_pos h, if_pos h, ih]
      rfl
    · rw [if_neg h, if_neg h, ih]
      rfl

theorem chunkWalk_none_eq_renderSpec (content_lines : List String) (L : List Int) :
    chunkWalk content_lines none L = renderSpec content_lines L := by
  cases L with
  | nil => rfl
  | cons n rest =>
    rw [chunkWalk, renderSpec, chunkWalk_some_eq_renderTail]

/-! ## Claims -/

/-- C9: for every input text, the verdict returned by `check_security`
satisfies `is_safe = (max_severity ≠ high)`; the two fields can never
disagree. -/
theorem claim9_is_safe_iff_not_high (sql : String) :
    (check_security sql).is_safe = ((check_security sql).max_severity != Severity.high) :=
  rfl

/-- C6: on `SELECT * FROM customers WHERE rrn = '990101-1234567'` the
classifier reports severity medium with the wildcard warning and the PII
(resident-registration-number) warning — the verdict's PII signal — and
`mask_pii` rewrites the national-ID literal to `990101-*******`. -/
theorem claim6_example_verdict_and_mask :
    check_security "SELECT * FROM customers WHERE rrn = '990101-1234567'" =
      { is_safe := true
        warnings := [selectStarWarning, piiWarning]
        max_severity := Severity.medium } ∧
    mask_pii "SELECT * FROM customers WHERE rrn = '990101-1234567'" =
      "SELECT * FROM customers WHERE rrn = '990101-*******'" := by
  constructor
  · decide
  · decide

/-- C8: on every exit path of `lint_sql` — success, linter process
failure, timeout, parse error — the temporary file is removed, and the
removal is the last resource event before control returns. -/
theorem claim8_temp_file_always_removed
    (parse : String → Option (List FileResult)) (req : SQLRequest) (run : RunOutcome) :
    (lint_sql parse req run).events =
      [FsEvent.createTemp, FsEvent.runLinter, FsEvent.removeTemp] ∧
    (lint_sql parse req run).events.getLast? = some FsEvent.removeTemp :=
  ⟨rfl, rfl⟩

/-- C1 counterexample: on `DELETE FROM customers WHERE id = 1` the
classifier reaches severity high, yet the service still runs the linter
subprocess and replies with status 200 (a success reply, not a client
error). -/
theorem claim1_counterexample :
    (check_security "DELETE FROM customers WHERE id = 1").max_severity = Severity.high ∧
    FsEvent.runLinter ∈
      (lint_sql (fun _ => none) { sql := "DELETE FROM customers WHERE id = 1" }
        (.completed 0 "" "")).events ∧
    statusCode
      (lint_sql (fun _ => none) { sql := "DELETE FROM customers WHERE id = 1" }
        (.completed 0 "" "")).reply = 200 := by
  refine ⟨by decide, ?_, by decide⟩
  decide

/-- C1 amended: `lint_sql` never short-circuits on a high-severity
classifier verdict: the linter subprocess is invoked for every request,
and whenever the reply is a success reply it embeds the
`check_security` verdict (with `is_safe = false` for severity high) in
its `security_analysis` field. -/
theorem claim1_amended_no_short_circuit
    (parse : String → Option (List FileResult)) (req : SQLRequest) (run : RunOutcome) :
    FsEvent.runLinter ∈ (lint_sql parse req run).events ∧
      (replySecurity (lint_sql parse req run).reply = none ∨
        replySecurity (lint_sql parse req run).reply = some (check_security req.sql)) := by
  constructor
  · show FsEvent.runLinter ∈ [FsEvent.createTemp, FsEvent.runLinter, FsEvent.removeTemp]
    exact List.mem_cons_of_mem _ (List.mem_cons_self _ _)
  · cases run with
    | timedOut => exact Or.inl rfl
    | completed rc out err =>
      by_cases h : rc = 0 ∨ rc = 1
      · cases hp : loadStdout parse out with
        | none => exact Or.inl (by simp [lint_sql, replySecurity, h, hp])
        | some raw => exact Or.inr (by simp [lint_sql, replySecurity, h, hp])
      · exact Or.inl (by simp [lint_sql, replySecurity, h])

/-- C10: for a completed linter run, the "Linter process failed" server
error is produced exactly when the exit code is neither 0 nor 1; exit
code 1 with parsable output yields a normal success reply whose
`syntax_analysis` lists the findings. -/
theorem claim10_exit_code_discipline
    (parse : String → Option (List FileResult)) (req : SQLRequest)
    (rc : Int) (out err : String) :
    ((lint_sql parse req (.completed rc out err)).reply = LintReply.processFailed err ↔
      ¬(rc = 0 ∨ rc = 1)) ∧
    (rc = 1 → ∀ raw, loadStdout parse out = some raw →
      (lint_sql parse req (.completed rc out err)).reply =
        LintReply.success (check_security req.sql)
          (decide (0 < (simplifiedErrors raw).length)) (simplifiedErrors raw)) := by
  constructor
  · by_cases h : rc = 0 ∨ rc = 1
    · cases hp : loadStdout parse out with
      | none => simp [lint_sql, h, hp]
      | some raw => simp [lint_sql, h, hp]
    · simp [lint_sql, h]
  · intro h1 raw hp
    have h : rc = 0 ∨ rc = 1 := Or.inr h1
    simp [lint_sql, h, hp]

/-- C10 witness: exit code 1 with one parsed violation produces the
success reply listing that finding. -/
theorem claim10_witness :
    (lint_sql
      (fun _ => some [{ violations := [{ line_no := some 3, description := some "missing semicolon", code := some "L052" }] }])
      { sql := "select 1" } (.completed 1 "out" "")).reply =
      LintReply.success (check_security "select 1")
        (decide (0 < (simplifiedErrors
          [{ violations := [{ line_no := some 3, description := some "missing semicolon", code := some "L052" }] }]).length))
        (simplifiedErrors
          [{ violations := [{ line_no := some 3, description := some "missing semicolon", code := some "L052" }] }]) :=
  (claim10_exit_code_discipline _ _ 1 "out" "").2 rfl _ (by decide)

/-- C5: whenever some destructive keyword matches at word boundaries
(case-insensitively), the verdict has severity high — no later rule
lowers it — with exactly one keyword warning per distinct matched
keyword, followed by the wildcard and PII warnings when those rules also
fire. -/
theorem claim5_keyword_severity_high (sql : String)
    (h : dangerous_keywords.filter (fun w => hasWord w sql) ≠ []) :
    check_security sql =
      { is_safe := false
        warnings := (dangerous_keywords.filter (fun w => hasWord w sql)).map kwWarning ++
          (if hasSelectStar sql then [selectStarWarning] else []) ++
          (if hasRrnSimple sql then [piiWarning] else [])
        max_severity := Severity.high } := by
  have hany : dangerous_keywords.any (fun w => hasWord w sql) = true := by
    obtain ⟨x, hx⟩ := List.exists_mem_of_ne_nil _ h
    rw [List.mem_filter] at hx
    rw [List.any_eq_true]
    exact ⟨x, hx.1, hx.2⟩
  unfold check_security
  rw [check_kw_foldl sql dangerous_keywords [] Severity.low, hany]
  by_cases h1 : hasSelectStar sql <;> by_cases h2 : hasRrnSimple sql <;>
    (simp [h1, h2]; try decide)

/-- C5 witness: `DROP TABLE t` matches the keyword rule and is classified
as severity high with the single corresponding warning. -/
theorem claim5_witness :
    dangerous_keywords.filter (fun w => hasWord w "DROP TABLE t") ≠ [] ∧
    check_security "DROP TABLE t" =
      { is_safe := false
        warnings := (dangerous_keywords.filter (fun w => hasWord w "DROP TABLE t")).map kwWarning ++
          (if hasSelectStar "DROP TABLE t" then [selectStarWarning] else []) ++
          (if hasRrnSimple "DROP TABLE t" then [piiWarning] else [])
        max_severity := Severity.high } :=
  ⟨by decide, claim5_keyword_severity_high _ (by decide)⟩

/-- C3 counterexample: `mask_pii` is not idempotent.  On
`01012345670101234567` the phone substitution masks the first eleven
digits, and the surviving digit run `5670101234567`, now preceded by a
non-digit, matches the national-ID pattern on the second pass only. -/
theorem claim3_counterexample :
    mask_pii (mask_pii "01012345670101234567") ≠ mask_pii "01012345670101234567" := by
  decide

/-- C3 amended: masking is idempotent on every input whose masked form
contains no further national-ID, phone, or e-mail pattern occurrence;
in general a substitution can expose a fresh national-ID-shaped match,
so a second pass may rewrite further. -/
theorem claim3_amended_idempotent_when_no_residual (t : String)
    (h : maskNoMatch (mask_pii t) = true) :
    mask_pii (mask_pii t) = mask_pii t :=
  mask_pii_of_noMatch (mask_pii t) h

/-- C3 witness: the specification's own example leaves no residual
pattern after masking, so re-masking it is a no-op. -/
theorem claim3_witness :
    maskNoMatch (mask_pii "SELECT * FROM customers WHERE rrn = '990101-1234567'") = true ∧
    mask_pii (mask_pii "SELECT * FROM customers WHERE rrn = '990101-1234567'") =
      mask_pii "SELECT * FROM customers WHERE rrn = '990101-1234567'" :=
  ⟨by decide, claim3_amended_idempotent_when_no_residual _ (by decide)⟩

/-- C2 counterexample: a reviewer call that times out produces the
report string `❌ 연결 오류: ...`, which `is_rejected` does not classify
as a rejection, so a run whose only snippet failed exits 0 — the
aggregate decision is not rejected. -/
theorem claim2_counterexample :
    is_rejected (call_dify_workflow (.exn "Read timed out.")) = false ∧
    run_exit [call_dify_workflow (.exn "Read timed out.")] = 0 := by
  refine ⟨by decide, ?_⟩
  decide

/-- C2 amended: the aggregate decision is rejected (exit 1) exactly when
some per-snippet report string matches the textual rejection patterns;
the failure verdicts produced for connection errors, non-ok HTTP
responses, and empty responses do not match them, so such failures count
toward a pass, not a rejection (fail open), while a genuine `상태: 반려`
report does. -/
theorem claim2_amended_fail_open :
    (∀ results : List String,
      run_exit results = 0 ↔ results.all (fun r => !is_rejected r) = true) ∧
    is_rejected (call_dify_workflow (.exn "Connection refused")) = false ∧
    is_rejected (call_dify_workflow (.httpError 500)) = false ∧
    is_rejected (call_dify_workflow (.ok none none none)) = false ∧
    is_rejected "상태: 반려" = true := by
  refine ⟨?_, by decide, by decide, by decide, by decide⟩
  intro results
  rw [run_exit, has_failure, foldl_or_eq_any, Bool.false_or]
  by_cases h : results.any is_rejected = true
  · rw [if_pos h]
    rw [List.any_eq_true] at h
    obtain ⟨x, hx, hrx⟩ := h
    constructor
    · intro hzero; exact absurd hzero (by decide)
    · intro hall
      rw [List.all_eq_true] at hall
      have hform := hall x hx
      rw [hrx] at hform
      exact absurd hform (by decide)
  · rw [if_neg h]
    have hfalse : results.any is_rejected = false := by
      cases hb : results.any is_rejected
      · rfl
      · exact absurd hb h
    constructor
    · intro _
      rw [List.all_eq_true]
      intro x hx
      rw [List.any_eq_false] at hfalse
      have hnx := hfalse x hx
      cases hb : is_rejected x
      · rfl
      · exact absurd hb hnx
    · intro _
      rfl

/-- C4: a file of at most 300 lines is submitted as its unmodified full
content; otherwise the kept line numbers are exactly the union of the
padded windows clamped to `[1, total]` over the changed-line ranges,
emitted strictly increasing (hence in original order, never duplicated)
with exactly one omission marker at each gap between non-consecutive kept
lines, and when windowing produced output it is what gets submitted. -/
theorem claim4_windowing (content : String) (ranges : List (Int × Int)) :
    ((splitlinesN content).length ≤ MAX_FULL_SCAN_LINES →
      select_content content ranges = content) ∧
    (∀ n : Int,
      n ∈ sorted_lines ranges ((splitlinesN content).length : Int) ↔
        ∃ r ∈ ranges, max 1 (r.1 - CONTEXT_PADDING) ≤ n ∧
          n ≤ min ((splitlinesN content).length : Int) (r.2 + CONTEXT_PADDING)) ∧
    (sorted_lines ranges ((splitlinesN content).length : Int)).Sorted (· < ·) ∧
    (lines_to_keep ranges ((splitlinesN content).length : Int) ≠ ∅ →
      extract_relevant_chunks ranges (splitlinesN content) =
        String.intercalate "\n"
          (renderSpec (splitlinesN content)
            (sorted_lines ranges ((splitlinesN content).length : Int)))) ∧
    (¬(splitlinesN content).length ≤ MAX_FULL_SCAN_LINES →
      extract_relevant_chunks ranges (splitlinesN content) ≠ "" →
      select_content content ranges = extract_relevant_chunks ranges (splitlinesN content)) := by
  refine ⟨select_content_of_small content ranges, ?_, sorted_lines_strict _ _, ?_, ?_⟩
  · intro n
    rw [mem_sorted_lines, mem_lines_to_keep]
  · intro hne
    have hr : ranges ≠ [] := by
      intro hcon
      apply hne
      rw [hcon]
      rfl
    rw [extract_relevant_chunks, if_neg hr, if_neg hne,
      chunkWalk_none_eq_renderSpec]
  · intro hbig hch
    rw [select_content, if_neg hbig, if_neg hch]

set_option maxRecDepth 8000

/-- C4 witness: a 301-line file with one changed range (10, 12) is
windowed to lines 1–32 (one block, no gap), and that windowed text is
what gets submitted. -/
theorem claim4_witness :
    select_content (String.intercalate "\n" (List.replicate 301 "x")) [((10 : Int), (12 : Int))] =
      String.intercalate "\n" (List.replicate 32 "x") := by
  have h := (claim4_windowing (String.intercalate "\n" (List.replicate 301 "x"))
    [((10 : Int), (12 : Int))]).2.2.2.2 (by decide) (by decide)
  rw [h]
  decide

/-- C7 counterexample: a generic-source artifact with no data-manipulation
keyword on any line still yields one snippet containing the full content,
not zero snippets — `get_file_contents` performs no keyword-based line
filtering. -/
theorem claim7_counterexample :
    get_file_contents_model "hello world" [] ≠ [] ∧
    get_file_contents_model "hello world" [] = ["hello world"] := by
  refine ⟨?_, by decide⟩
  decide

/-- C7 amended: for every generic-source artifact, extraction submits the
entire (possibly windowed) content, PII-masked, as exactly one snippet
whenever the masked text is not whitespace-only, and zero snippets
otherwise; no keyword-based line filtering takes place.  In particular a
short, non-blank artifact without PII patterns is submitted verbatim as
one snippet. -/
theorem claim7_amended_whole_content_single_snippet
    (content : String) (ranges : List (Int × Int)) :
    (get_file_contents_model content ranges).length ≤ 1 ∧
    (∀ s ∈ get_file_contents_model content ranges,
      s = mask_pii (select_content content ranges)) ∧
    (pyStrip content ≠ "" → maskNoMatch content = true →
      (splitlinesN content).length ≤ MAX_FULL_SCAN_LINES →
      get_file_contents_model content ranges = [content]) := by
  refine ⟨?_, ?_, ?_⟩
  · rw [get_file_contents_model]
    by_cases h : pyStrip (mask_pii (select_content content ranges)) = ""
    · simp [h]
    · simp [h]
  · intro s hs
    rw [get_file_contents_model] at hs
    by_cases h : pyStrip (mask_pii (select_content content ranges)) = ""
    · rw [if_pos h] at hs
      cases hs
    · rw [if_neg h] at hs
      rw [List.mem_singleton] at hs
      exact hs
  · intro htrim hmask hsmall
    rw [get_file_contents_model, select_content_of_small content ranges hsmall,
      mask_pii_of_noMatch content hmask, if_neg htrim]

/-- C7 witness: `hello world` with a nonempty range list is still
submitted whole as a single snippet. -/
theorem claim7_witness :
    get_file_contents_model "hello world" [((1 : Int), (1 : Int))] = ["hello world"] :=
  (claim7_amended_whole_content_single_snippet "hello world" [((1 : Int), (1 : Int))]).2.2
    (by decide) (by decide) (by decide)

end SqlReview
